import Mathlib

/-!
Shallow embedding of `ariba/mapping.py` (module `mapping` of the ariba
repository) and proofs about it.

The module glues together external genomics tools.  We embed:

* the pure data transformations (`sam_to_fastq`, the `AS`-tag summation of
  `get_total_alignment_score`, the awk unmapped-pair filter predicate);
* the command-line construction and file lifecycle of `bowtie2_index` and
  `run_bowtie2`.  The filesystem is modelled as a list of existing file
  names, and each external invocation is recorded as the exact command
  string the Python code composes.  The effects of the external tools
  themselves (index building creating the six index files, the alignment
  pipeline creating the intermediate BAM, sort/index creating the final BAM
  and its companion `.bai`) are modelled from the spec, since the binaries
  are not part of the repository.
-/

namespace Ariba

/-- A parsed alignment record, as exposed by the external alignment-file
reader (pysam).  `mapping.py` only inspects these fields: the read name,
the pairing-role flags, the reverse-strand flag, and the stored sequence
and quality strings. -/
structure SamRecord where
  qname : String
  is_read1 : Bool
  is_read2 : Bool
  is_reverse : Bool
  seq : String
  qual : String
  deriving Repr, DecidableEq

/-- A sequence-with-quality record (pyfastaq `Fastq`): a name, the bases,
and the quality string. -/
structure Fastq where
  id : String
  seq : String
  qual : String
  deriving Repr, DecidableEq

/-- Modelled from the spec: nucleotide complementation used by the external
sequence library reverse-complement operation (A-T and C-G swapped, case
preserved, any other symbol unchanged). -/
def comp (c : Char) : Char :=
  if c = 'A' then 'T'
  else if c = 'T' then 'A'
  else if c = 'C' then 'G'
  else if c = 'G' then 'C'
  else if c = 'a' then 't'
  else if c = 't' then 'a'
  else if c = 'c' then 'g'
  else if c = 'g' then 'c'
  else c

/-- Modelled from the spec: `common.decode` of this repository (its file is
not under src/) decodes a byte representation into text; on an
already-textual value it is the identity, which is what it is here since
the embedding stores sequences and qualities as text. -/
def decode (s : String) : String := s

/-- Modelled from the spec: the in-place reverse-complement operation of the
external sequence object (pyfastaq `Fastq.revcomp`): bases are complemented
and order-reversed, the quality string is order-reversed only. -/
def Fastq.revcomp (s : Fastq) : Fastq :=
  { id := s.id,
    seq := String.mk ((s.seq.data.map comp).reverse),
    qual := String.mk (s.qual.data.reverse) }

/-- `sam_to_fastq` from `mapping.py`: appends `/1` or `/2` to the read name
according to the pairing-role flags (raising an error when neither flag is
set), builds the Fastq record from the decoded sequence and quality, and
reverse-complements it when the reverse-strand flag is set. -/
def sam_to_fastq (sam : SamRecord) : Except String Fastq :=
  let name := sam.qname
  match (if sam.is_read1 then Except.ok (name ++ "/1")
         else if sam.is_read2 then Except.ok (name ++ "/2")
         else Except.error ("Read " ++ name ++
           " must be first or second of pair according to flag. Cannot continue")
         : Except String String) with
  | Except.error e => Except.error e
  | Except.ok name =>
    let seq := Fastq.mk name (decode sam.seq) (decode sam.qual)
    Except.ok (if sam.is_reverse then seq.revcomp else seq)

/-- One record of a binary alignment file, as far as
`get_total_alignment_score` inspects it: the optional integer `AS` tag.
`none` models a record for which `sam.opt` raises (tag absent). -/
structure BamRecord where
  as_tag : Option Int
  deriving Repr, DecidableEq

/-- The loop body of `get_total_alignment_score`: add the `AS` tag when the
lookup succeeds, otherwise swallow the error and leave the total
unchanged. -/
def as_step (total : Int) (sam : BamRecord) : Int :=
  match sam.as_tag with
  | some v => total + v
  | none => total

/-- `get_total_alignment_score` from `mapping.py`: iterate over every record
of the BAM file and total the `AS` tags, tolerating records without the
tag. -/
def get_total_alignment_score (bam : List BamRecord) : Int :=
  bam.foldl as_step 0

/-- The awk filter predicate `run_bowtie2` inserts when
`remove_both_unmapped` is set, applied to the integer flag field of one
alignment record: awk `!(and($2,4)) || !(and($2,8))` keeps the record
exactly when `flag AND 4` is zero or `flag AND 8` is zero. -/
def remove_both_unmapped_keep (flag : Nat) : Bool :=
  (flag &&& 4 == 0) || (flag &&& 8 == 0)

/-- The six suffixes of a bowtie2 index, as listed in `mapping.py`. -/
def indexSuffixes : List String := ["1", "2", "3", "4", "rev.1", "rev.2"]

/-- The expected index files of `bowtie2_index`:
`outprefix ++ "." ++ x ++ ".bt2"` for each of the six suffixes. -/
def expected_files (opfx : String) : List String :=
  indexSuffixes.map (fun x => opfx ++ "." ++ x ++ ".bt2")

/-- The index-building command `bowtie2_index` composes:
the tool name with `-build` appended, then `-q`, the reference path and
the output prefix. -/
def bowtie2_build_cmd (bowtie2 ref_fa opfx : String) : String :=
  String.intercalate " " [bowtie2 ++ "-build", "-q", ref_fa, opfx]

/-- Result of a modelled run: the external command lines issued, in order,
and the set (as a list) of files existing afterwards. -/
structure IndexResult where
  syscalls : List String
  files : List String
  deriving Repr, DecidableEq

/-- `bowtie2_index` from `mapping.py` over a filesystem `fs` (list of
existing file names): if none of the six expected index files is missing it
returns at once with no invocation; otherwise it issues the single build
command.  That the successful build creates the six files is modelled from
the spec (the builder is an external tool). -/
def bowtie2_index (fs : List String) (ref_fa opfx bowtie2 : String) : IndexResult :=
  let expected := expected_files opfx
  let file_missing := expected.any (fun filename => !(fs.contains filename))
  if !file_missing then
    { syscalls := [], files := fs }
  else
    { syscalls := [bowtie2_build_cmd bowtie2 ref_fa opfx],
      files := fs ++ expected }

/-- The single-quote character, used inside the awk filter fragment. -/
def sq : String := (Char.ofNat 39).toString

/-- The raw awk pipeline fragment appended to the bowtie2 command when
`remove_both_unmapped` is set (its predicate is modelled by
`remove_both_unmapped_keep`). -/
def awk_filter : String :=
  " | awk " ++ sq ++ " !(and($2,4)) || !(and($2,8)) " ++ sq ++ " "

/-- Result of a modelled `run_bowtie2`: the external command lines issued,
in order, and the files existing after the run. -/
structure RunResult where
  syscalls : List String
  files : List String
  deriving Repr, DecidableEq

/-- `run_bowtie2` from `mapping.py` over a filesystem `fs`.  Faithful to the
source: it derives `map_index` from the output prefix, queues the six index
files for deletion when `clean_index` is set, maps to
`out_pfx ++ ".unsorted.bam"` when `sort` is set and directly to
`out_pfx ++ ".bam"` otherwise, composes the bowtie2-samtools pipeline
(with the awk filter stage when `remove_both_unmapped` is set), ensures the
index, runs the pipeline, and when `sort` is set runs `samtools sort` with
thread count `min 4 threads` and per-thread memory `500 / threads` MiB
followed by `samtools index`, queueing the intermediate BAM for deletion.
Finally every queued file is deleted.  The effects of the external
pipeline, sort and index invocations (creating the intermediate BAM, the
final BAM and its `.bai`) are modelled from the spec. -/
def run_bowtie2 (fs : List String)
    (reads_fwd reads_rev ref_fa out_pfx : String)
    (threads max_insert : Nat) (sort : Bool)
    (samtools bowtie2 bowtie2_preset : String)
    (remove_both_unmapped clean_index : Bool) : RunResult :=
  let map_index := out_pfx ++ ".map_index"
  let clean_files :=
    if clean_index then indexSuffixes.map (fun x => map_index ++ "." ++ x ++ ".bt2")
    else []
  let final_bam := out_pfx ++ ".bam"
  let intermediate_bam := if sort then out_pfx ++ ".unsorted.bam" else final_bam
  let map_cmd_list :=
    [bowtie2,
     "--threads", toString threads,
     "--reorder",
     "--" ++ bowtie2_preset,
     "-X", toString max_insert,
     "-x", map_index,
     "-1", reads_fwd,
     "-2", reads_rev]
  let map_cmd_list :=
    if remove_both_unmapped then map_cmd_list ++ [awk_filter] else map_cmd_list
  let map_cmd_list :=
    map_cmd_list ++ ["|", samtools, "view", "-bS -T", ref_fa, "- >", intermediate_bam]
  let map_cmd := String.intercalate " " map_cmd_list
  let idx := bowtie2_index fs ref_fa map_index bowtie2
  let fs1 := idx.files ++ [intermediate_bam]
  if sort then
    let threads := min 4 threads
    let thread_mem := 500 / threads
    let sort_cmd := String.intercalate " "
      [samtools, "sort",
       "-@" ++ toString threads,
       "-m" ++ toString thread_mem ++ "M",
       "-o", final_bam,
       "-O bam",
       "-T", out_pfx ++ ".tmp.samtool_sort",
       intermediate_bam]
    let index_cmd := samtools ++ " index " ++ final_bam
    let fs2 := fs1 ++ [final_bam, final_bam ++ ".bai"]
    let clean_files := clean_files ++ [intermediate_bam]
    { syscalls := idx.syscalls ++ [map_cmd, sort_cmd, index_cmd],
      files := fs2.filter (fun f => !(clean_files.contains f)) }
  else
    { syscalls := idx.syscalls ++ [map_cmd],
      files := fs1.filter (fun f => !(clean_files.contains f)) }

end Ariba
namespace Ariba

theorem append_right_cancel_ne (p a b : String) (h : a ≠ b) : p ++ a ≠ p ++ b := by
  intro heq
  apply h
  apply String.ext
  have hd := congrArg String.data heq
  rw [String.data_append, String.data_append] at hd
  exact List.append_cancel_left hd

theorem and_pow_two_eq_zero_iff (flag : Nat) (i : Nat) :
    flag &&& 2 ^ i = 0 ↔ flag.testBit i = false := by
  rw [Nat.and_two_pow]
  cases hb : flag.testBit i <;> simp [hb]

/-- C1: the awk filter predicate inserted by `run_bowtie2` keeps a record
with flag `f` iff at least one of the two unmapped flag bits (value 4, read
unmapped, bit 2; value 8, mate unmapped, bit 3) is clear, and drops it iff
both are set. -/
theorem remove_both_unmapped_keep_spec (flag : Nat) :
    (remove_both_unmapped_keep flag = true ↔ (flag &&& 4 = 0 ∨ flag &&& 8 = 0)) ∧
    (remove_both_unmapped_keep flag = true ↔
      (flag.testBit 2 = false ∨ flag.testBit 3 = false)) ∧
    (remove_both_unmapped_keep flag = false ↔
      (flag.testBit 2 = true ∧ flag.testBit 3 = true)) := by
  have h4 : flag &&& 4 = 0 ↔ flag.testBit 2 = false := by
    have h : (4 : Nat) = 2 ^ 2 := by norm_num
    rw [h, and_pow_two_eq_zero_iff]
  have h8 : flag &&& 8 = 0 ↔ flag.testBit 3 = false := by
    have h : (8 : Nat) = 2 ^ 3 := by norm_num
    rw [h, and_pow_two_eq_zero_iff]
  refine ⟨by simp [remove_both_unmapped_keep], ?_, ?_⟩
  · simp [remove_both_unmapped_keep, h4, h8]
  · simp [remove_both_unmapped_keep, h4, h8]

/-- C2: `sam_to_fastq` fails, with the error message naming the read, iff
neither pairing-role flag is set; it returns a record iff one of them is
set. -/
theorem sam_to_fastq_pair_error (sam : SamRecord) :
    (sam_to_fastq sam = Except.error ("Read " ++ sam.qname ++
        " must be first or second of pair according to flag. Cannot continue")
      ↔ (sam.is_read1 = false ∧ sam.is_read2 = false)) ∧
    ((∃ fq, sam_to_fastq sam = Except.ok fq)
      ↔ (sam.is_read1 = true ∨ sam.is_read2 = true)) := by
  cases h1 : sam.is_read1 <;> cases h2 : sam.is_read2 <;>
    simp [sam_to_fastq, h1, h2]

/-- C3: on an accepted record, `sam_to_fastq` suffixes the name with `/1`
for first-of-pair (else `/2`), copies sequence and quality verbatim on the
forward strand, and on the reverse strand complements-and-reverses the
bases and reverses the quality. -/
theorem sam_to_fastq_content (sam : SamRecord)
    (h : sam.is_read1 = true ∨ sam.is_read2 = true) :
    sam_to_fastq sam = Except.ok
      { id := sam.qname ++ (if sam.is_read1 then "/1" else "/2"),
        seq := if sam.is_reverse then String.mk ((sam.seq.data.map comp).reverse) else sam.seq,
        qual := if sam.is_reverse then String.mk (sam.qual.data.reverse) else sam.qual } := by
  cases h1 : sam.is_read1 <;> cases h2 : sam.is_read2 <;> cases hr : sam.is_reverse <;>
    simp_all [sam_to_fastq, decode, Fastq.revcomp]

theorem sam_to_fastq_content_witness :
    sam_to_fastq ⟨"readA", true, false, true, "ACGG", "IHII"⟩ =
      Except.ok ⟨"readA/1", "CCGT", "IIHI"⟩ := by
  have h := sam_to_fastq_content ⟨"readA", true, false, true, "ACGG", "IHII"⟩ (Or.inl rfl)
  exact h.trans (congrArg Except.ok (by decide))

theorem foldl_as_step (bam : List BamRecord) (acc : Int) :
    bam.foldl as_step acc = acc + (bam.filterMap BamRecord.as_tag).sum := by
  induction bam generalizing acc with
  | nil => simp
  | cons hd tl ih =>
    cases h : hd.as_tag
    · simp [as_step, h, ih]
    · simp [as_step, h, ih]
      ring

/-- C4: `get_total_alignment_score` returns exactly the sum of the `AS`
tags present; untagged records contribute nothing, and any number of them
(including the empty file) gives 0. -/
theorem get_total_alignment_score_spec (bam : List BamRecord) (n : Nat) :
    get_total_alignment_score bam = (bam.filterMap BamRecord.as_tag).sum ∧
    get_total_alignment_score (List.replicate n { as_tag := none }) = 0 ∧
    get_total_alignment_score ([] : List BamRecord) = 0 := by
  refine ⟨by simp [get_total_alignment_score, foldl_as_step], ?_,
    by simp [get_total_alignment_score]⟩
  rw [get_total_alignment_score, foldl_as_step]
  simp [List.filterMap_eq_nil_iff]

/-- C10: a record flagged both first- and second-of-pair is treated as
first-of-pair: no error, and the name gets the `/1` suffix. -/
theorem sam_to_fastq_both_flags (sam : SamRecord)
    (h1 : sam.is_read1 = true) (h2 : sam.is_read2 = true) :
    ∃ fq, sam_to_fastq sam = Except.ok fq ∧ fq.id = sam.qname ++ "/1" := by
  cases hr : sam.is_reverse
  · refine ⟨{ id := sam.qname ++ "/1", seq := decode sam.seq, qual := decode sam.qual },
      ?_, rfl⟩
    simp [sam_to_fastq, h1, hr]
  · refine ⟨Fastq.revcomp
      { id := sam.qname ++ "/1", seq := decode sam.seq, qual := decode sam.qual }, ?_, rfl⟩
    simp [sam_to_fastq, h1, hr]

theorem sam_to_fastq_both_flags_witness :
    ∃ fq, sam_to_fastq ⟨"r", true, true, false, "AC", "II"⟩ = Except.ok fq ∧
      fq.id = "r" ++ "/1" :=
  sam_to_fastq_both_flags ⟨"r", true, true, false, "AC", "II"⟩ rfl rfl

theorem map_index_file_eq (p x : String) :
    ((p ++ ".map_index") ++ "." ++ x) ++ ".bt2" = p ++ (".map_index." ++ (x ++ ".bt2")) := by
  have h : (".map_index" : String) ++ "." = ".map_index." := by decide
  simp only [String.append_assoc, ← h]

theorem expected_files_map_index (p : String) :
    expected_files (p ++ ".map_index") =
      [p ++ ".map_index.1.bt2", p ++ ".map_index.2.bt2", p ++ ".map_index.3.bt2",
       p ++ ".map_index.4.bt2", p ++ ".map_index.rev.1.bt2", p ++ ".map_index.rev.2.bt2"] := by
  have e1 : (".map_index." ++ ("1" ++ ".bt2") : String) = ".map_index.1.bt2" := by decide
  have e2 : (".map_index." ++ ("2" ++ ".bt2") : String) = ".map_index.2.bt2" := by decide
  have e3 : (".map_index." ++ ("3" ++ ".bt2") : String) = ".map_index.3.bt2" := by decide
  have e4 : (".map_index." ++ ("4" ++ ".bt2") : String) = ".map_index.4.bt2" := by decide
  have e5 : (".map_index." ++ ("rev.1" ++ ".bt2") : String) = ".map_index.rev.1.bt2" := by decide
  have e6 : (".map_index." ++ ("rev.2" ++ ".bt2") : String) = ".map_index.rev.2.bt2" := by decide
  simp only [expected_files, indexSuffixes, List.map_cons, List.map_nil,
    map_index_file_eq, e1, e2, e3, e4, e5, e6]

theorem bam_not_mem_index_files (p : String) :
    (p ++ ".bam") ∉ expected_files (p ++ ".map_index") := by
  rw [expected_files_map_index]
  intro hmem
  simp only [List.mem_cons, List.not_mem_nil, or_false] at hmem
  rcases hmem with h|h|h|h|h|h <;>
    exact append_right_cancel_ne p _ _ (by decide) h

theorem unsorted_not_mem_index_files (p : String) :
    (p ++ ".unsorted.bam") ∉ expected_files (p ++ ".map_index") := by
  rw [expected_files_map_index]
  intro hmem
  simp only [List.mem_cons, List.not_mem_nil, or_false] at hmem
  rcases hmem with h|h|h|h|h|h <;>
    exact append_right_cancel_ne p _ _ (by decide) h

theorem bowtie2_index_files_mem (fs : List String) (ref opfx bt f : String)
    (hne : f ∉ expected_files opfx) :
    (f ∈ (bowtie2_index fs ref opfx bt).files ↔ f ∈ fs) := by
  simp only [bowtie2_index]
  by_cases h : ∀ x ∈ expected_files opfx, x ∈ fs
  · have hb : ((expected_files opfx).any fun filename => !fs.contains filename) = false := by
      simpa using h
    rw [hb]
    simp
  · have hb : ((expected_files opfx).any fun filename => !fs.contains filename) = true := by
      push_neg at h
      simpa using h
    rw [hb]
    simp [hne]

theorem bowtie2_index_files_expected (fs : List String) (ref opfx bt f : String)
    (hf : f ∈ expected_files opfx) : f ∈ (bowtie2_index fs ref opfx bt).files := by
  simp only [bowtie2_index]
  by_cases h : ∀ x ∈ expected_files opfx, x ∈ fs
  · have hb : ((expected_files opfx).any fun filename => !fs.contains filename) = false := by
      simpa using h
    rw [hb]
    simpa using h f hf
  · have hb : ((expected_files opfx).any fun filename => !fs.contains filename) = true := by
      push_neg at h
      simpa using h
    rw [hb]
    simpa using Or.inr hf

theorem clean_files_eq (p : String) :
    indexSuffixes.map (fun x => (p ++ ".map_index") ++ "." ++ x ++ ".bt2") =
      expected_files (p ++ ".map_index") := rfl

theorem run_bowtie2_files_char (fs : List String) (rf rr ref p : String)
    (threads mi : Nat) (sort : Bool) (st bt pre : String) (rbu ci : Bool) (f : String) :
    f ∈ (run_bowtie2 fs rf rr ref p threads mi sort st bt pre rbu ci).files ↔
      ((f ∈ (bowtie2_index fs ref (p ++ ".map_index") bt).files ∨
        (if sort then f = p ++ ".unsorted.bam" ∨ f = p ++ ".bam" ∨ f = (p ++ ".bam") ++ ".bai"
         else f = p ++ ".bam")) ∧
       ¬(ci = true ∧ f ∈ expected_files (p ++ ".map_index")) ∧
       ¬(sort = true ∧ f = p ++ ".unsorted.bam")) := by
  cases sort <;> cases ci <;>
    simp [run_bowtie2, clean_files_eq, List.mem_filter, List.mem_append, and_assoc,
      or_assoc] <;>
    tauto

theorem append3_split (a : List String) (x y z : String) :
    a ++ [x, y, z] = (a ++ [x]) ++ [y, z] := by simp

theorem dot_suffix_norm (p x : String) :
    ((p ++ ".") ++ x) ++ ".bt2" = p ++ ("." ++ (x ++ ".bt2")) := by
  simp only [String.append_assoc]

/-- C6: when all six expected index files exist, `bowtie2_index` performs
no external invocation and makes no file changes. -/
theorem bowtie2_index_noop (fs : List String) (ref_fa opfx bt : String)
    (h : ∀ f ∈ expected_files opfx, f ∈ fs) :
    bowtie2_index fs ref_fa opfx bt = { syscalls := [], files := fs } := by
  simp only [bowtie2_index]
  have hb : ((expected_files opfx).any fun filename => !fs.contains filename) = false := by
    simpa using h
  rw [hb]
  simp

theorem bowtie2_index_noop_witness :
    bowtie2_index ["p.1.bt2", "p.2.bt2", "p.3.bt2", "p.4.bt2", "p.rev.1.bt2", "p.rev.2.bt2"]
        "ref.fa" "p" "bowtie2" =
      { syscalls := [],
        files := ["p.1.bt2", "p.2.bt2", "p.3.bt2", "p.4.bt2", "p.rev.1.bt2", "p.rev.2.bt2"] } :=
  bowtie2_index_noop _ _ _ _ (by decide)

/-- C7: the six expected index file paths are the output prefix followed by
`.1.bt2`, `.2.bt2`, `.3.bt2`, `.4.bt2`, `.rev.1.bt2`, `.rev.2.bt2`; when
one is missing, exactly one build invocation occurs, and its command line
passes the reference path and the output prefix. -/
theorem bowtie2_index_builds (fs : List String) (ref_fa opfx bt : String)
    (h : ∃ f ∈ expected_files opfx, f ∉ fs) :
    expected_files opfx =
      [opfx ++ ".1.bt2", opfx ++ ".2.bt2", opfx ++ ".3.bt2", opfx ++ ".4.bt2",
       opfx ++ ".rev.1.bt2", opfx ++ ".rev.2.bt2"] ∧
    (expected_files opfx).length = 6 ∧
    (bowtie2_index fs ref_fa opfx bt).syscalls = [bowtie2_build_cmd bt ref_fa opfx] ∧
    bowtie2_build_cmd bt ref_fa opfx =
      (bt ++ "-build") ++ " " ++ "-q" ++ " " ++ ref_fa ++ " " ++ opfx := by
  have d1 : ("." ++ ("1" ++ ".bt2") : String) = ".1.bt2" := by decide
  have d2 : ("." ++ ("2" ++ ".bt2") : String) = ".2.bt2" := by decide
  have d3 : ("." ++ ("3" ++ ".bt2") : String) = ".3.bt2" := by decide
  have d4 : ("." ++ ("4" ++ ".bt2") : String) = ".4.bt2" := by decide
  have d5 : ("." ++ ("rev.1" ++ ".bt2") : String) = ".rev.1.bt2" := by decide
  have d6 : ("." ++ ("rev.2" ++ ".bt2") : String) = ".rev.2.bt2" := by decide
  refine ⟨?_, by simp [expected_files, indexSuffixes], ?_, ?_⟩
  · simp only [expected_files, indexSuffixes, List.map_cons, List.map_nil,
      dot_suffix_norm, d1, d2, d3, d4, d5, d6]
  · simp only [bowtie2_index]
    have hb : ((expected_files opfx).any fun filename => !fs.contains filename) = true := by
      simpa using h
    rw [hb]
    simp
  · simp [bowtie2_build_cmd, String.intercalate, String.intercalate.go]

theorem bowtie2_index_builds_witness :
    expected_files "p" =
      ["p" ++ ".1.bt2", "p" ++ ".2.bt2", "p" ++ ".3.bt2", "p" ++ ".4.bt2",
       "p" ++ ".rev.1.bt2", "p" ++ ".rev.2.bt2"] ∧
    (expected_files "p").length = 6 ∧
    (bowtie2_index [] "ref.fa" "p" "bowtie2").syscalls =
      [bowtie2_build_cmd "bowtie2" "ref.fa" "p"] ∧
    bowtie2_build_cmd "bowtie2" "ref.fa" "p" =
      ("bowtie2" ++ "-build") ++ " " ++ "-q" ++ " " ++ "ref.fa" ++ " " ++ "p" :=
  bowtie2_index_builds [] "ref.fa" "p" "bowtie2" (by decide)

/-- C5: with sorting requested and at least one thread, `run_bowtie2`
invokes the sort tool with thread count `min 4 threads` and per-thread
memory `500 / min 4 threads` MiB, and then the indexing tool on the final
BAM path. -/
theorem run_bowtie2_sort_commands (fs : List String) (rf rr ref p : String)
    (threads mi : Nat) (st bt pre : String) (rbu ci : Bool)
    (h : 1 ≤ threads) :
    ∃ calls,
      (run_bowtie2 fs rf rr ref p threads mi true st bt pre rbu ci).syscalls =
        calls ++
          [String.intercalate " "
            [st, "sort", "-@" ++ toString (min 4 threads),
             "-m" ++ toString (500 / min 4 threads) ++ "M",
             "-o", p ++ ".bam", "-O bam", "-T", p ++ ".tmp.samtool_sort",
             p ++ ".unsorted.bam"],
           st ++ " index " ++ (p ++ ".bam")] := by
  simp only [run_bowtie2]
  exact ⟨_, append3_split _ _ _ _⟩

theorem run_bowtie2_sort_commands_witness :
    ∃ calls,
      (run_bowtie2 [] "f.fq" "r.fq" "ref.fa" "out" 3 1000 true "samtools" "bowtie2"
          "very-sensitive-local" false true).syscalls =
        calls ++
          [String.intercalate " "
            ["samtools", "sort", "-@" ++ toString (min 4 3),
             "-m" ++ toString (500 / min 4 3) ++ "M",
             "-o", "out" ++ ".bam", "-O bam", "-T", "out" ++ ".tmp.samtool_sort",
             "out" ++ ".unsorted.bam"],
           "samtools" ++ " index " ++ ("out" ++ ".bam")] :=
  run_bowtie2_sort_commands [] "f.fq" "r.fq" "ref.fa" "out" 3 1000 "samtools" "bowtie2"
    "very-sensitive-local" false true (by decide)

/-- C8: the final BAM path is `out_prefix ++ ".bam"` in both modes; without
sorting the `.unsorted.bam` path is never created (it exists afterwards
exactly when it existed before), and with sorting the `.unsorted.bam`
intermediate is queued for deletion and no longer exists after the run. -/
theorem run_bowtie2_bam_paths (fs : List String) (rf rr ref p : String)
    (threads mi : Nat) (st bt pre : String) (rbu ci : Bool) :
    (p ++ ".bam") ∈ (run_bowtie2 fs rf rr ref p threads mi false st bt pre rbu ci).files ∧
    ((p ++ ".unsorted.bam") ∈ (run_bowtie2 fs rf rr ref p threads mi false st bt pre rbu ci).files
      ↔ (p ++ ".unsorted.bam") ∈ fs) ∧
    (p ++ ".bam") ∈ (run_bowtie2 fs rf rr ref p threads mi true st bt pre rbu ci).files ∧
    (p ++ ".unsorted.bam") ∉ (run_bowtie2 fs rf rr ref p threads mi true st bt pre rbu ci).files := by
  have hbam := bam_not_mem_index_files p
  have huns := unsorted_not_mem_index_files p
  have hne : ¬((p ++ ".unsorted.bam") = (p ++ ".bam")) :=
    append_right_cancel_ne p _ _ (by decide)
  have hne2 : ¬((p ++ ".bam") = (p ++ ".unsorted.bam")) :=
    append_right_cancel_ne p _ _ (by decide)
  have hmem := bowtie2_index_files_mem fs ref (p ++ ".map_index") bt
    (p ++ ".unsorted.bam") huns
  simp [run_bowtie2_files_char, hbam, huns, hne, hne2, hmem]

/-- C9: after a run with `clean_index = true` none of the six index files
exists; with `clean_index = false` all six exist afterwards. -/
theorem run_bowtie2_index_cleanup (fs : List String) (rf rr ref p : String)
    (threads mi : Nat) (sort : Bool) (st bt pre : String) (rbu : Bool) :
    ((expected_files (p ++ ".map_index")).all
      (fun f =>
        !((run_bowtie2 fs rf rr ref p threads mi sort st bt pre rbu true).files.contains f))
      = true) ∧
    ((expected_files (p ++ ".map_index")).all
      (fun f =>
        (run_bowtie2 fs rf rr ref p threads mi sort st bt pre rbu false).files.contains f)
      = true) := by
  constructor
  · rw [List.all_eq_true]
    intro f hf
    simp [run_bowtie2_files_char, hf]
  · rw [List.all_eq_true]
    intro f hf
    have hmem := bowtie2_index_files_expected fs ref (p ++ ".map_index") bt f hf
    have hneq : ¬(f = p ++ ".unsorted.bam") := fun heq =>
      unsorted_not_mem_index_files p (heq ▸ hf)
    cases sort <;> simp [run_bowtie2_files_char, hmem, hneq]

end Ariba
